import Mathlib

/-!
Shallow embedding of the EOL reconciliation engine in
src/react_agent/tools.py: the SBOM parser (parse_sbom), the EOL checker
and upgrade recommender (check_eol_dates), and the retry wrapper (search).
Network calls and the wall clock are passed in as explicit parameters;
Python exceptions are modelled with an Except monad.
-/

/-- JSON-like values as produced by json.loads: objects are ordered
association lists with string keys. -/
inductive J where
  | null : J
  | bool : Bool → J
  | num : Int → J
  | str : String → J
  | arr : List J → J
  | obj : List (String × J) → J

/-- Python exceptions that the embedded functions can raise. -/
inductive PyErr where
  | keyError : String → PyErr
  | valueError : String → PyErr
  | typeError : PyErr
  | attributeError : PyErr
  deriving Repr, DecidableEq

/-- First binding of key k in an association list (Python dict lookup). -/
def assocFind (fields : List (String × J)) (k : String) : Option J :=
  match fields with
  | [] => none
  | (k2, v) :: rest => if k2 = k then some v else assocFind rest k

/-- Python subscript d[k]: KeyError when the key is absent, TypeError when
the value subscripted is not a dict. -/
def J.index (j : J) (k : String) : Except PyErr J :=
  match j with
  | .obj fields =>
      match assocFind fields k with
      | some v => .ok v
      | none => .error (.keyError k)
  | _ => .error .typeError

/-- Python d.get(k): none when the key is absent; AttributeError when the
receiver is not a dict. -/
def J.getOpt (j : J) (k : String) : Except PyErr (Option J) :=
  match j with
  | .obj fields => .ok (assocFind fields k)
  | _ => .error .attributeError

/-- A calendar date as produced by datetime.strptime with format Y-m-d. -/
structure Date where
  year : Nat
  month : Nat
  day : Nat
  deriving Repr, DecidableEq

/-- Strict comparison of two dates (datetime comparison restricted to the
date components, lexicographic). -/
def dateLt (a b : Date) : Bool :=
  a.year < b.year ||
    (a.year == b.year &&
      (a.month < b.month || (a.month == b.month && a.day < b.day)))

/-- Split a character list at every occurrence of the separator, keeping
empty groups, as Python str.split with an explicit separator does. -/
def splitOnChar (sep : Char) : List Char → List (List Char)
  | [] => [[]]
  | c :: rest =>
      let r := splitOnChar sep rest
      if c = sep then [] :: r
      else
        match r with
        | [] => [[c]]
        | g :: gs => (c :: g) :: gs

/-- Nonempty and every character an ASCII digit. -/
def allDigits (l : List Char) : Bool :=
  !l.isEmpty && l.all Char.isDigit

/-- Numeric value of a list of ASCII digits. -/
def digitsToNat (l : List Char) : Nat :=
  l.foldl (fun n c => n * 10 + (c.toNat - 48)) 0

def isLeapYear (y : Nat) : Bool :=
  (y % 4 == 0 && y % 100 != 0) || y % 400 == 0

def daysInMonth (y m : Nat) : Nat :=
  if m == 2 then (if isLeapYear y then 29 else 28)
  else if m == 4 || m == 6 || m == 9 || m == 11 then 30
  else 31

/-- datetime.strptime(s, Y-m-d) as a total function: some date on success,
none when the call raises ValueError. The year is exactly four digits, the
month and day one or two digits, the whole string must be consumed, and
month and day values are range-checked including leap years. -/
def strptimeYMD (s : String) : Option Date :=
  match splitOnChar '-' s.toList with
  | [ys, ms, ds] =>
      if allDigits ys && ys.length == 4 && allDigits ms && ms.length ≤ 2
          && allDigits ds && ds.length ≤ 2 then
        let y := digitsToNat ys
        let m := digitsToNat ms
        let d := digitsToNat ds
        if 1 ≤ y && 1 ≤ m && m ≤ 12 && 1 ≤ d && d ≤ daysInMonth y m then
          some ⟨y, m, d⟩
        else none
      else none
  | _ => none

/-- Sort key used in the max over the release-cycle table at line 110 of
tools.py: a parsed date for string eol fields, or datetime.max for
non-string eol fields, which lies strictly above every parseable date. -/
inductive DKey where
  | fin : Date → DKey
  | top : DKey
  deriving Repr, DecidableEq

def dkeyLt (a b : DKey) : Bool :=
  match a, b with
  | .fin x, .fin y => dateLt x y
  | .fin _, .top => true
  | .top, _ => false

/-- The key lambda of the max call: v["eol"] raises KeyError when absent;
a string value is parsed with strptime, raising ValueError when
unparseable; any non-string value becomes datetime.max. -/
def eolKey (v : J) : Except PyErr DKey := do
  let e ← v.index "eol"
  match e with
  | .str s =>
      match strptimeYMD s with
      | some d => pure (.fin d)
      | none => .error (.valueError s)
  | _ => pure .top

/-- Tail of Python max(iterable, key=f): best element and its key so far;
the running best is replaced only when a later key is strictly greater, so
the first element with the maximal key wins. -/
def pyMaxGo (key : J → Except PyErr DKey) (best : J) (bk : DKey) :
    List J → Except PyErr J
  | [] => .ok best
  | y :: ys => do
      let ky ← key y
      if dkeyLt bk ky then pyMaxGo key y ky ys else pyMaxGo key best bk ys

/-- Python max(iterable, key=f): evaluates keys left to right, propagating
exceptions raised by the key function; ValueError on an empty iterable. -/
def pyMax (key : J → Except PyErr DKey) : List J → Except PyErr J
  | [] => .error (.valueError "max of empty sequence")
  | x :: xs => do
      let k ← key x
      pyMaxGo key x k xs

/-- The generator expression at line 103 of tools.py: scan the table left
to right for the first item whose "cycle" field equals the major-version
string; item["cycle"] is evaluated lazily and only up to the first match,
and comparing a non-string cycle with a Python str is simply unequal. -/
def findCycle (table : List J) (mv : String) : Except PyErr (Option J) :=
  match table with
  | [] => .ok none
  | item :: rest => do
      let c ← item.index "cycle"
      match c with
      | .str s => if s = mv then .ok (some item) else findCycle rest mv
      | _ => findCycle rest mv

/-- version.split(".")[0]: the characters before the first dot, or the
whole string when it has no dot. -/
def majorToken (version : String) : String :=
  String.mk (version.toList.takeWhile (fun c => c != '.'))

/-- One element of the upgrades list built by check_eol_dates. -/
structure Upgrade where
  name : J
  current_version : String
  eol_date : String
  suggested_version : J
  suggested_eol_date : J

/-- The body of the per-framework loop of check_eol_dates (lines 96-126 of
tools.py): ok (some u) when the framework is flagged past due with upgrade
u, ok none when it is skipped, error when the Python code would raise. The
network fetch is a parameter from the name value to the decoded response
list, with none standing for a failed fetch. -/
def processFramework (fetch : J → Option (List J)) (now : Date) (fw : J) :
    Except PyErr (Option Upgrade) := do
  let nameJ ← fw.index "name"
  let versionJ ← fw.index "version"
  match versionJ with
  | .str version =>
      match fetch nameJ with
      | none => pure none
      | some [] => pure none
      | some table => do
          let found ← findCycle table (majorToken version)
          match found with
          | none => pure none
          | some vd => do
              let eolOpt ← vd.getOpt "eol"
              match eolOpt with
              | some (.str s) =>
                  match strptimeYMD s with
                  | none => .error (.valueError s)
                  | some eolDate =>
                      if dateLt eolDate now then do
                        let latest ← pyMax eolKey table
                        let sc ← latest.index "cycle"
                        let se ← latest.index "eol"
                        pure (some ⟨nameJ, version, s, sc, se⟩)
                      else pure none
              | _ => pure none
  | _ => .error .attributeError

/-- The loop of check_eol_dates over all frameworks, accumulating the
upgrades list in order; the first raised exception aborts the loop. -/
def processAll (fetch : J → Option (List J)) (now : Date) :
    List J → Except PyErr (List Upgrade)
  | [] => .ok []
  | fw :: rest => do
      let r ← processFramework fetch now fw
      let rs ← processAll fetch now rest
      match r with
      | some u => pure (u :: rs)
      | none => pure rs

/-- check_eol_dates (lines 87-128 of tools.py): ok none models the early
return None on an empty framework list; otherwise the accumulated upgrades
list is returned (possibly empty). -/
def check_eol_dates (fetch : J → Option (List J)) (now : Date)
    (frameworks : List J) : Except PyErr (Option (List Upgrade)) :=
  match frameworks with
  | [] => .ok none
  | _ => do
      let us ← processAll fetch now frameworks
      pure (some us)

/-- The raw SBOM text after json.loads: invalid when loads raises
JSONDecodeError, valid with the decoded value otherwise. -/
inductive SbomText where
  | invalid : SbomText
  | valid : J → SbomText

/-- parse_sbom (lines 70-85 of tools.py): ok none where the Python code
returns None (JSONDecodeError, or a components field that is not a list);
ok (some xs) where it returns the list xs; error where it would raise
uncaught (a .get on a non-object top level). -/
def parse_sbom (s : SbomText) : Except PyErr (Option (List J)) :=
  match s with
  | .invalid => .ok none
  | .valid j =>
      match j with
      | .obj fields =>
          match assocFind fields "components" with
          | none => .ok (some [])
          | some (.arr xs) => .ok (some xs)
          | some _ => .ok none
      | _ => .error .attributeError

/-- Exceptions the upstream search call can raise: an APIStatusError with
its str(e) message, or any other exception. -/
inductive Exn where
  | apiStatus : String → Exn
  | other : String → Exn
  deriving Repr, DecidableEq

/-- The needle starts the haystack. -/
def leadsWith : List Char → List Char → Bool
  | [], _ => true
  | _, [] => false
  | a :: as2, b :: bs => a == b && leadsWith as2 bs

/-- The needle occurs as a contiguous run inside the haystack. -/
def occursIn (needle : List Char) : List Char → Bool
  | [] => needle.isEmpty
  | b :: bs => leadsWith needle (b :: bs) || occursIn needle bs

/-- The membership test at line 43 of tools.py: the overloaded_error
signature occurs as a substring of str(e). -/
def containsOverloaded (m : String) : Bool :=
  occursIn "overloaded_error".toList m.toList

/-- An exception triggers the backoff branch exactly when it is an
APIStatusError whose message contains the overloaded signature; any other
exception propagates out of the loop body. -/
def retryable (e : Exn) : Bool :=
  match e with
  | .apiStatus m => containsOverloaded m
  | .other _ => false

inductive SearchOutcome (α : Type) where
  | returned : Option α → SearchOutcome α
  | raised : Exn → SearchOutcome α
  deriving Repr, DecidableEq

/-- A complete run of search: the final outcome, the sleep durations in
order, and the attempt indices at which the upstream was invoked. -/
structure SearchRun (α : Type) where
  outcome : SearchOutcome α
  sleeps : List Nat
  calls : List Nat
  deriving Repr, DecidableEq

/-- The retry loop of search: the first list argument holds the remaining
attempt indices from range(max_retries); sleeps and calls are accumulated
in reverse. -/
def searchGo (upstream : Nat → Except Exn α) :
    List Nat → List Nat → List Nat → SearchRun α
  | [], sleeps, calls => ⟨.returned none, sleeps.reverse, calls.reverse⟩
  | attempt :: rest, sleeps, calls =>
      match upstream attempt with
      | .ok r => ⟨.returned (some r), sleeps.reverse, (attempt :: calls).reverse⟩
      | .error e =>
          if retryable e then
            searchGo upstream rest (2 ^ attempt :: sleeps) (attempt :: calls)
          else
            ⟨.raised e, sleeps.reverse, (attempt :: calls).reverse⟩

/-- search (lines 25-51 of tools.py): at most 5 attempts, a sleep of
2 ^ attempt after each overloaded failure, immediate re-raise of any other
exception, and a returned None after exhaustion. The upstream call is a
parameter from the attempt index to its result. -/
def search (upstream : Nat → Except Exn α) : SearchRun α :=
  searchGo upstream [0, 1, 2, 3, 4] [] []

/-- Release-cycle table of the C2 scenario. -/
def c2Table : List J :=
  [J.obj [("cycle", J.str "1"), ("eol", J.str "2023-12-31")],
   J.obj [("cycle", J.str "2"), ("eol", J.str "2025-12-31")]]

/-- A component record with the given name and version 1.0.0. -/
def c2Component (nm : String) : J :=
  J.obj [("name", J.str nm), ("version", J.str "1.0.0")]

/-- A table whose matched entry has a string eol that is not a date. -/
def c1Table : List J :=
  [J.obj [("cycle", J.str "1"), ("eol", J.str "not-a-date")]]

/-- A table whose matched entry has a boolean eol. -/
def c1TableBool : List J :=
  [J.obj [("cycle", J.str "1"), ("eol", J.bool false)]]

/-- A table whose matched entry has no eol field. -/
def c1TableNoEol : List J :=
  [J.obj [("cycle", J.str "1")]]

/-- A table with a past-due matched entry and a later entry carrying an
unparseable string eol. -/
def c3Table : List J :=
  [J.obj [("cycle", J.str "1"), ("eol", J.str "2023-12-31")],
   J.obj [("cycle", J.str "2"), ("eol", J.str "garbage")]]

/-- A table whose only entry has the unparseable string eol nope. -/
def c7Table : List J :=
  [J.obj [("cycle", J.str "1"), ("eol", J.str "nope")]]

/-- A table whose only entry has the unparseable string eol oops. -/
def c8Table : List J :=
  [J.obj [("cycle", J.str "1"), ("eol", J.str "oops")]]

/-- A component record lacking the name key. -/
def c8BadFw : J :=
  J.obj [("version", J.str "2")]

/-- Upstream that is overloaded on attempts 0 to 3 and succeeds on 4. -/
def c5Upstream : Nat → Except Exn Nat :=
  fun i => if i < 4 then .error (.apiStatus "overloaded_error") else .ok 7

/-- Upstream that raises a non-overloaded error on every attempt. -/
def c6Upstream : Nat → Except Exn Nat :=
  fun _ => .error (.other "boom")

/-- Upstream that is overloaded on every attempt. -/
def c10Upstream : Nat → Except Exn Nat :=
  fun _ => .error (.apiStatus "xx overloaded_error yy")

lemma dateLt_iff (a b : Date) : dateLt a b = true ↔
    (a.year < b.year ∨ (a.year = b.year ∧
      (a.month < b.month ∨ (a.month = b.month ∧ a.day < b.day)))) := by
  simp [dateLt]

lemma dateLt_asymm (a b : Date) (h : dateLt a b = true) : dateLt b a = false := by
  rw [dateLt_iff] at h
  cases hab : dateLt b a
  · rfl
  · rw [dateLt_iff] at hab
    omega

lemma dateLt_trans (a b c : Date) (h1 : dateLt a b = true)
    (h2 : dateLt b c = true) : dateLt a c = true := by
  rw [dateLt_iff] at h1 h2 ⊢
  omega

lemma dateLt_total (a b : Date) (h : dateLt a b = false) :
    dateLt b a = true ∨ b = a := by
  cases hba : dateLt b a
  · right
    have h1 : ¬ (dateLt a b = true) := by simp [h]
    have h2 : ¬ (dateLt b a = true) := by simp [hba]
    rw [dateLt_iff] at h1 h2
    obtain ⟨ay, am, ad⟩ := a
    obtain ⟨by2, bm, bd⟩ := b
    simp at h1 h2 ⊢
    omega
  · left
    rfl

lemma dateLt_irrefl (a : Date) : dateLt a a = false := by
  have h : ¬ dateLt a a = true := by rw [dateLt_iff]; omega
  simpa using h

lemma dkeyLt_asymm (a b : DKey) (h : dkeyLt a b = true) : dkeyLt b a = false := by
  cases a <;> cases b <;> simp [dkeyLt] at h ⊢
  exact dateLt_asymm _ _ h

lemma dkeyLt_trans (a b c : DKey) (h1 : dkeyLt a b = true)
    (h2 : dkeyLt b c = true) : dkeyLt a c = true := by
  cases a <;> cases b <;> cases c <;> simp [dkeyLt] at h1 h2 ⊢
  exact dateLt_trans _ _ _ h1 h2

lemma dkeyLt_total (a b : DKey) (h : dkeyLt a b = false) :
    dkeyLt b a = true ∨ b = a := by
  cases a <;> cases b <;> simp [dkeyLt] at h ⊢
  exact dateLt_total _ _ h

lemma dkeyLt_irrefl (a : DKey) : dkeyLt a a = false := by
  cases a with
  | top => rfl
  | fin d => simpa [dkeyLt] using dateLt_irrefl d

/-- Invariant of the running-max loop: a successful result is either the
initial best (no later key beat it) or the first later element whose key
strictly beat everything before it and is not beaten afterwards. -/
lemma pyMaxGo_spec (key : J → Except PyErr DKey) :
    ∀ (l : List J) (best : J) (bk : DKey) (x : J),
      pyMaxGo key best bk l = .ok x →
      (x = best ∧ ∀ y ∈ l, ∃ ky, key y = .ok ky ∧ dkeyLt bk ky = false)
      ∨ (∃ pre post kx, l = pre ++ x :: post ∧ key x = .ok kx ∧
          dkeyLt bk kx = true ∧
          (∀ y ∈ pre, ∃ ky, key y = .ok ky ∧ dkeyLt ky kx = true) ∧
          (∀ y ∈ post, ∃ ky, key y = .ok ky ∧ dkeyLt kx ky = false)) := by
  intro l
  induction l with
  | nil =>
    intro best bk x h
    simp [pyMaxGo] at h
    exact Or.inl ⟨h.symm, by simp⟩
  | cons y ys ih =>
    intro best bk x h
    simp only [pyMaxGo] at h
    cases hky : key y with
    | error e => rw [hky] at h; simp [bind, Except.bind] at h
    | ok ky =>
      rw [hky] at h
      simp only [bind, Except.bind] at h
      by_cases hlt : dkeyLt bk ky = true
      · rw [if_pos hlt] at h
        rcases ih y ky x h with ⟨hx, hall⟩ |
          ⟨pre, post, kx, hsplit, hkx, hbk, hpre, hpost⟩
        · subst hx
          exact Or.inr ⟨[], ys, ky, by simp, hky, hlt, by simp, hall⟩
        · refine Or.inr ⟨y :: pre, post, kx, by simp [hsplit], hkx,
            dkeyLt_trans _ _ _ hlt hbk, ?_, hpost⟩
          intro z hz
          rcases List.mem_cons.mp hz with hz | hz
          · exact ⟨ky, by rw [hz]; exact hky, hbk⟩
          · exact hpre z hz
      · rw [if_neg hlt] at h
        have hlt2 : dkeyLt bk ky = false := by
          cases h2 : dkeyLt bk ky
          · rfl
          · exact absurd h2 hlt
        rcases ih best bk x h with ⟨hx, hall⟩ |
          ⟨pre, post, kx, hsplit, hkx, hbk, hpre, hpost⟩
        · refine Or.inl ⟨hx, ?_⟩
          intro z hz
          rcases List.mem_cons.mp hz with hz | hz
          · exact ⟨ky, by rw [hz]; exact hky, hlt2⟩
          · exact hall z hz
        · refine Or.inr ⟨y :: pre, post, kx, by simp [hsplit], hkx, hbk, ?_, hpost⟩
          intro z hz
          rcases List.mem_cons.mp hz with hz | hz
          · refine ⟨ky, by rw [hz]; exact hky, ?_⟩
            rcases dkeyLt_total _ _ hlt2 with h3 | h3
            · exact dkeyLt_trans _ _ _ h3 hbk
            · exact h3 ▸ hbk
          · exact hpre z hz

/-- A successful pyMax returns the first element of the list attaining the
maximal key: every earlier element has a strictly smaller key and no
element anywhere has a strictly larger one. -/
lemma pyMax_spec (key : J → Except PyErr DKey) (l : List J) (x : J)
    (h : pyMax key l = .ok x) :
    ∃ pre post kx, l = pre ++ x :: post ∧ key x = .ok kx ∧
      (∀ y ∈ pre, ∃ ky, key y = .ok ky ∧ dkeyLt ky kx = true) ∧
      (∀ y ∈ l, ∃ ky, key y = .ok ky ∧ dkeyLt kx ky = false) := by
  cases l with
  | nil => simp [pyMax] at h
  | cons z zs =>
    simp only [pyMax] at h
    cases hkz : key z with
    | error e => rw [hkz] at h; simp [bind, Except.bind] at h
    | ok kz =>
      rw [hkz] at h
      simp only [bind, Except.bind] at h
      rcases pyMaxGo_spec key zs z kz x h with ⟨hx, hall⟩ |
        ⟨pre, post, kx, hsplit, hkx, hbk, hpre, hpost⟩
      · subst hx
        refine ⟨[], zs, kz, by simp, hkz, by simp, ?_⟩
        intro y hy
        rcases List.mem_cons.mp hy with hy | hy
        · exact ⟨kz, by rw [hy]; exact hkz, dkeyLt_irrefl kz⟩
        · exact hall y hy
      · refine ⟨z :: pre, post, kx, by simp [hsplit], hkx, ?_, ?_⟩
        · intro y hy
          rcases List.mem_cons.mp hy with hy | hy
          · exact ⟨kz, by rw [hy]; exact hkz, hbk⟩
          · exact hpre y hy
        · intro y hy
          rcases List.mem_cons.mp hy with hy | hy
          · exact ⟨kz, by rw [hy]; exact hkz, dkeyLt_asymm _ _ hbk⟩
          · rw [hsplit] at hy
            rcases List.mem_append.mp hy with hy2 | hy2
            · obtain ⟨ky, hky, hlt⟩ := hpre y hy2
              exact ⟨ky, hky, dkeyLt_asymm _ _ hlt⟩
            · rcases List.mem_cons.mp hy2 with hy3 | hy3
              · exact ⟨kx, by rw [hy3]; exact hkx, dkeyLt_irrefl kx⟩
              · exact hpost y hy3

/-- When every framework in the prefix is processed without raising and
the next framework raises, the whole loop raises that exception. -/
lemma processAll_prefix_error (fetch : J → Option (List J)) (now : Date) :
    ∀ (pre : List J) (fw : J) (post : List J) (e : PyErr),
      (∀ f ∈ pre, ∃ r, processFramework fetch now f = .ok r) →
      processFramework fetch now fw = .error e →
      processAll fetch now (pre ++ fw :: post) = .error e := by
  intro pre
  induction pre with
  | nil =>
    intro fw post e _ hfw
    simp [processAll, hfw, bind, Except.bind]
  | cons p ps ih =>
    intro fw post e hall hfw
    obtain ⟨r, hr⟩ := hall p (List.mem_cons_self p ps)
    have h2 := ih fw post e (fun f hf => hall f (List.mem_cons_of_mem p hf)) hfw
    simp [processAll, hr, h2, bind, Except.bind]

/-- When every framework is skipped without error, the loop accumulates
the empty upgrades list. -/
lemma processAll_all_none (fetch : J → Option (List J)) (now : Date) :
    ∀ l : List J, (∀ fw ∈ l, processFramework fetch now fw = .ok none) →
      processAll fetch now l = .ok [] := by
  intro l
  induction l with
  | nil => intro; rfl
  | cons f fs ih =>
    intro hall
    have h1 := hall f (List.mem_cons_self f fs)
    have h2 := ih (fun g hg => hall g (List.mem_cons_of_mem f hg))
    simp [processAll, h1, h2, bind, Except.bind, pure, Except.pure]

/-- Claim C1, counterexample: a matched entry whose eol is the string
not-a-date makes check_eol_dates raise ValueError, aborting the whole call
although a second component was still pending, instead of skipping the
component without error as the claim states. -/
theorem claim_c1_counterexample :
    check_eol_dates (fun _ => some c1Table) ⟨2024, 1, 1⟩
      [c2Component "x", c2Component "y"] = .error (.valueError "not-a-date") := rfl

/-- Claim C1, amended: a matched entry whose eol is absent or a non-string
is treated as not past due and skipped without error, but a matched entry
whose eol is a string that does not parse as a dash-separated date makes
check_eol_dates raise ValueError, aborting the whole call. -/
theorem claim_c1_amended (fetch : J → Option (List J)) (now : Date)
    (fw nameJ entry : J) (version : String) (t : J) (ts : List J)
    (hname : fw.index "name" = .ok nameJ)
    (hver : fw.index "version" = .ok (.str version))
    (hf : fetch nameJ = some (t :: ts))
    (hfind : findCycle (t :: ts) (majorToken version) = .ok (some entry)) :
    (∀ s, entry.getOpt "eol" = .ok (some (.str s)) → strptimeYMD s = none →
      ∀ rest, check_eol_dates fetch now (fw :: rest) = .error (.valueError s))
    ∧ (∀ e, entry.getOpt "eol" = .ok (some e) → (∀ s, e ≠ .str s) →
      processFramework fetch now fw = .ok none)
    ∧ (entry.getOpt "eol" = .ok none →
      processFramework fetch now fw = .ok none) := by
  refine ⟨?_, ?_, ?_⟩
  · intro s hget hparse rest
    simp [check_eol_dates, processAll, processFramework, hname, hver, hf, hfind,
      hget, hparse, bind, Except.bind, pure, Except.pure]
  · intro e hget hnotstr
    cases e with
    | str s => exact absurd rfl (hnotstr s)
    | null =>
      simp [processFramework, hname, hver, hf, hfind, hget, bind, Except.bind,
        pure, Except.pure]
    | bool b =>
      simp [processFramework, hname, hver, hf, hfind, hget, bind, Except.bind,
        pure, Except.pure]
    | num n =>
      simp [processFramework, hname, hver, hf, hfind, hget, bind, Except.bind,
        pure, Except.pure]
    | arr xs =>
      simp [processFramework, hname, hver, hf, hfind, hget, bind, Except.bind,
        pure, Except.pure]
    | obj fs =>
      simp [processFramework, hname, hver, hf, hfind, hget, bind, Except.bind,
        pure, Except.pure]
  · intro hget
    simp [processFramework, hname, hver, hf, hfind, hget, bind, Except.bind,
      pure, Except.pure]

/-- Claim C1, witness: the three branches of the amended claim at concrete
tables with a string, a boolean and an absent eol. -/
theorem claim_c1_witness :
    check_eol_dates (fun _ => some c1Table) ⟨2024, 1, 1⟩ [c2Component "x"] =
      .error (.valueError "not-a-date")
    ∧ processFramework (fun _ => some c1TableBool) ⟨2024, 1, 1⟩
        (c2Component "x") = .ok none
    ∧ processFramework (fun _ => some c1TableNoEol) ⟨2024, 1, 1⟩
        (c2Component "x") = .ok none :=
  ⟨(claim_c1_amended (fun _ => some c1Table) ⟨2024, 1, 1⟩ (c2Component "x")
      (J.str "x") _ "1.0.0" _ _ rfl rfl rfl rfl).1 "not-a-date" rfl rfl [],
   (claim_c1_amended (fun _ => some c1TableBool) ⟨2024, 1, 1⟩ (c2Component "x")
      (J.str "x") _ "1.0.0" _ _ rfl rfl rfl rfl).2.1 (J.bool false) rfl
      (fun s h => nomatch h),
   (claim_c1_amended (fun _ => some c1TableNoEol) ⟨2024, 1, 1⟩ (c2Component "x")
      (J.str "x") _ "1.0.0" _ _ rfl rfl rfl rfl).2.2 rfl⟩

/-- Claim C2: a component with version 1.0.0 whose table maps cycle 1 to
eol 2023-12-31 and cycle 2 to eol 2025-12-31, evaluated at any current
time strictly after 2023-12-31, is flagged past due with exactly the
recommendation naming cycle 2 and its eol date. -/
theorem claim_c2 (nm : String) (now : Date)
    (hnow : dateLt ⟨2023, 12, 31⟩ now = true)
    (fetch : J → Option (List J)) (hf : fetch (J.str nm) = some c2Table) :
    check_eol_dates fetch now [c2Component nm] =
      .ok (some [⟨J.str nm, "1.0.0", "2023-12-31", J.str "2", J.str "2025-12-31"⟩]) := by
  have hmaj : majorToken "1.0.0" = "1" := rfl
  have hparse : strptimeYMD "2023-12-31" = some ⟨2023, 12, 31⟩ := rfl
  simp [check_eol_dates, processAll, processFramework, c2Component, J.index,
    J.getOpt, assocFind, hf, c2Table, findCycle, hmaj, hparse, hnow, pyMax,
    pyMaxGo, eolKey, dkeyLt, bind, Except.bind, pure, Except.pure, Functor.map,
    Except.map]
  rfl

/-- Claim C2, witness: the scenario at name lib and current date
2024-01-01. -/
theorem claim_c2_witness :
    dateLt ⟨2023, 12, 31⟩ ⟨2024, 1, 1⟩ = true ∧
    check_eol_dates (fun _ => some c2Table) ⟨2024, 1, 1⟩ [c2Component "lib"] =
      .ok (some [⟨J.str "lib", "1.0.0", "2023-12-31", J.str "2", J.str "2025-12-31"⟩]) :=
  ⟨rfl, claim_c2 "lib" ⟨2024, 1, 1⟩ rfl (fun _ => some c2Table) rfl⟩

/-- Claim C3, counterexample: with a past-due matched entry and a later
entry whose eol is the unparseable string garbage, check_eol_dates raises
ValueError instead of letting the unparseable entry dominate the maximum
and become the suggestion as the claim states. -/
theorem claim_c3_counterexample :
    check_eol_dates (fun _ => some c3Table) ⟨2024, 1, 1⟩ [c2Component "x"] =
      .error (.valueError "garbage") := rfl

/-- Claim C3, amended: for a past-due component the suggested target is
the result of the max over the full table, which is the first entry
attaining the maximal key, where an entry whose eol is a non-string value
gets the key datetime.max dominating every real date; but an entry whose
eol is a string that does not parse makes the max computation raise
ValueError, aborting the call, rather than dominating it. -/
theorem claim_c3_amended :
    (∀ (fetch : J → Option (List J)) (now : Date)
        (fw nameJ entry latest sc se : J) (version s : String) (d : Date)
        (t : J) (ts : List J),
      fw.index "name" = .ok nameJ →
      fw.index "version" = .ok (.str version) →
      fetch nameJ = some (t :: ts) →
      findCycle (t :: ts) (majorToken version) = .ok (some entry) →
      entry.getOpt "eol" = .ok (some (.str s)) →
      strptimeYMD s = some d →
      dateLt d now = true →
      pyMax eolKey (t :: ts) = .ok latest →
      latest.index "cycle" = .ok sc →
      latest.index "eol" = .ok se →
      processFramework fetch now fw = .ok (some ⟨nameJ, version, s, sc, se⟩))
    ∧ (∀ (table : List J) (latest : J), pyMax eolKey table = .ok latest →
        ∃ pre post kx, table = pre ++ latest :: post ∧ eolKey latest = .ok kx ∧
          (∀ y ∈ pre, ∃ ky, eolKey y = .ok ky ∧ dkeyLt ky kx = true) ∧
          (∀ y ∈ table, ∃ ky, eolKey y = .ok ky ∧ dkeyLt kx ky = false))
    ∧ (∀ (v e : J), v.index "eol" = .ok e → (∀ s2, e ≠ .str s2) →
        eolKey v = .ok .top)
    ∧ (∀ k, dkeyLt .top k = false) := by
  refine ⟨?_, ?_, ?_, ?_⟩
  · intro fetch now fw nameJ entry latest sc se version s d t ts hname hver hf
      hfind hget hparse hlt hmax hcy hev
    simp [processFramework, hname, hver, hf, hfind, hget, hparse, hlt, hmax,
      hcy, hev, bind, Except.bind, pure, Except.pure, Functor.map, Except.map]
  · intro table latest h
    exact pyMax_spec eolKey table latest h
  · intro v e he hnotstr
    cases e with
    | str s2 => exact absurd rfl (hnotstr s2)
    | null => simp [eolKey, he, bind, Except.bind, pure, Except.pure]
    | bool b => simp [eolKey, he, bind, Except.bind, pure, Except.pure]
    | num n => simp [eolKey, he, bind, Except.bind, pure, Except.pure]
    | arr xs => simp [eolKey, he, bind, Except.bind, pure, Except.pure]
    | obj fs => simp [eolKey, he, bind, Except.bind, pure, Except.pure]
  · intro k
    rfl

/-- Claim C3, witness: the past-due recommendation built from the max over
the C2 table, the first-maximum characterization at that table, and the
domination key of a boolean eol entry. -/
theorem claim_c3_witness :
    processFramework (fun _ => some c2Table) ⟨2024, 1, 1⟩ (c2Component "w") =
      .ok (some ⟨J.str "w", "1.0.0", "2023-12-31", J.str "2", J.str "2025-12-31"⟩)
    ∧ (∃ pre post kx,
        c2Table = pre ++ (J.obj [("cycle", J.str "2"), ("eol", J.str "2025-12-31")]) :: post ∧
        eolKey (J.obj [("cycle", J.str "2"), ("eol", J.str "2025-12-31")]) = .ok kx ∧
        (∀ y ∈ pre, ∃ ky, eolKey y = .ok ky ∧ dkeyLt ky kx = true) ∧
        (∀ y ∈ c2Table, ∃ ky, eolKey y = .ok ky ∧ dkeyLt kx ky = false))
    ∧ eolKey (J.obj [("eol", J.bool false)]) = .ok .top
    ∧ dkeyLt .top (.fin ⟨2024, 1, 1⟩) = false :=
  ⟨claim_c3_amended.1 (fun _ => some c2Table) ⟨2024, 1, 1⟩ (c2Component "w")
      (J.str "w") _ _ _ _ "1.0.0" "2023-12-31" ⟨2023, 12, 31⟩ _ _
      rfl rfl rfl rfl rfl rfl rfl rfl rfl rfl,
   claim_c3_amended.2.1 c2Table _ rfl,
   claim_c3_amended.2.2.1 (J.obj [("eol", J.bool false)]) (J.bool false) rfl
      (fun s2 h => nomatch h),
   claim_c3_amended.2.2.2 (.fin ⟨2024, 1, 1⟩)⟩

/-- Claim C4, counterexample: a valid JSON object whose components field is
the number 5 makes parse_sbom return the same None failure signal as
invalid JSON, not the empty result the claim states. -/
theorem claim_c4_counterexample :
    parse_sbom (.valid (.obj [("components", J.num 5)])) = .ok none
    ∧ parse_sbom .invalid = .ok none
    ∧ parse_sbom (.valid (.obj [("components", J.num 5)])) = parse_sbom .invalid :=
  ⟨rfl, rfl, rfl⟩

/-- Claim C4, amended: parse_sbom returns the None failure signal both
when the text is not valid JSON and when a components field is present but
not a sequence; it returns the empty result when components is absent, and
the list itself when components is a sequence. -/
theorem claim_c4_amended :
    parse_sbom .invalid = .ok none
    ∧ (∀ fields, assocFind fields "components" = none →
        parse_sbom (.valid (.obj fields)) = .ok (some []))
    ∧ (∀ fields xs, assocFind fields "components" = some (.arr xs) →
        parse_sbom (.valid (.obj fields)) = .ok (some xs))
    ∧ (∀ fields v, assocFind fields "components" = some v →
        (∀ xs, v ≠ .arr xs) → parse_sbom (.valid (.obj fields)) = .ok none) := by
  refine ⟨rfl, ?_, ?_, ?_⟩
  · intro fields h
    simp [parse_sbom, h]
  · intro fields xs h
    simp [parse_sbom, h]
  · intro fields v h hv
    cases v with
    | arr xs => exact absurd rfl (hv xs)
    | null => simp [parse_sbom, h]
    | bool b => simp [parse_sbom, h]
    | num n => simp [parse_sbom, h]
    | str s => simp [parse_sbom, h]
    | obj fs => simp [parse_sbom, h]

/-- Claim C4, witness: the amended branches at concrete inputs with the
components field absent, a list, and the number 5. -/
theorem claim_c4_witness :
    parse_sbom (.valid (.obj [("other", J.null)])) = .ok (some [])
    ∧ parse_sbom (.valid (.obj [("components", J.arr [J.num 1])])) =
        .ok (some [J.num 1])
    ∧ parse_sbom (.valid (.obj [("components", J.num 5)])) = .ok none :=
  ⟨claim_c4_amended.2.1 [("other", J.null)] rfl,
   claim_c4_amended.2.2.1 [("components", J.arr [J.num 1])] [J.num 1] rfl,
   claim_c4_amended.2.2.2 [("components", J.num 5)] (J.num 5) rfl
     (fun xs h => nomatch h)⟩

/-- Claim C5: an upstream raising a classified overloaded error on the
first four attempts and succeeding on the fifth makes search return the
success result after sleeping 1, 2, 4 and 8 time units between attempts,
invoking the upstream exactly five times. -/
theorem claim_c5 {α : Type} (upstream : Nat → Except Exn α) (r : α)
    (e0 e1 e2 e3 : Exn)
    (h0 : upstream 0 = .error e0) (hr0 : retryable e0 = true)
    (h1 : upstream 1 = .error e1) (hr1 : retryable e1 = true)
    (h2 : upstream 2 = .error e2) (hr2 : retryable e2 = true)
    (h3 : upstream 3 = .error e3) (hr3 : retryable e3 = true)
    (h4 : upstream 4 = .ok r) :
    search upstream = ⟨.returned (some r), [1, 2, 4, 8], [0, 1, 2, 3, 4]⟩ := by
  simp [search, searchGo, h0, hr0, h1, hr1, h2, hr2, h3, hr3, h4]

/-- Claim C5, witness: the concrete upstream overloaded four times then
succeeding with 7. -/
theorem claim_c5_witness :
    search c5Upstream = ⟨.returned (some 7), [1, 2, 4, 8], [0, 1, 2, 3, 4]⟩ :=
  claim_c5 c5Upstream 7 (.apiStatus "overloaded_error")
    (.apiStatus "overloaded_error") (.apiStatus "overloaded_error")
    (.apiStatus "overloaded_error") rfl rfl rfl rfl rfl rfl rfl rfl rfl

/-- Claim C6: an upstream raising a non-overloaded error on the first
attempt makes search re-raise it immediately, with no sleeps and no
further attempts. -/
theorem claim_c6 {α : Type} (upstream : Nat → Except Exn α) (e : Exn)
    (h0 : upstream 0 = .error e) (hr : retryable e = false) :
    search upstream = ⟨.raised e, [], [0]⟩ := by
  simp [search, searchGo, h0, hr]

/-- Claim C6, witness: the concrete upstream raising a non-overloaded
error. -/
theorem claim_c6_witness :
    search c6Upstream = ⟨.raised (.other "boom"), [], [0]⟩ :=
  claim_c6 c6Upstream (.other "boom") rfl rfl

/-- Claim C7, counterexample: a non-empty input on which no component is
flagged past due, yet check_eol_dates raises ValueError from the matched
entry whose eol string does not parse, instead of returning the empty
sequence the claim states. -/
theorem claim_c7_counterexample :
    check_eol_dates (fun _ => some c7Table) ⟨2024, 1, 1⟩
      [J.obj [("name", J.str "y"), ("version", J.str "1.0")]] =
      .error (.valueError "nope") := rfl

/-- Claim C7, amended: check_eol_dates returns the None failure signal
exactly when the input list is empty; for a non-empty list every component
of which is processed without raising and without being flagged past due,
it returns the empty sequence; a component whose processing raises aborts
the call instead. -/
theorem claim_c7_amended (fetch : J → Option (List J)) (now : Date)
    (frameworks : List J) :
    (check_eol_dates fetch now frameworks = .ok none ↔ frameworks = [])
    ∧ (frameworks ≠ [] →
       (∀ fw ∈ frameworks, processFramework fetch now fw = .ok none) →
       check_eol_dates fetch now frameworks = .ok (some [])) := by
  constructor
  · constructor
    · intro h
      cases frameworks with
      | nil => rfl
      | cons f fs =>
        exfalso
        have hdef : check_eol_dates fetch now (f :: fs) =
            Except.bind (processAll fetch now (f :: fs))
              (fun us => Except.ok (some us)) := rfl
        rw [hdef] at h
        cases hpa : processAll fetch now (f :: fs) with
        | error e => rw [hpa] at h; simp [Except.bind] at h
        | ok us => rw [hpa] at h; simp [Except.bind] at h
    · intro h
      subst h
      rfl
  · intro hne hall
    cases frameworks with
    | nil => exact absurd rfl hne
    | cons f fs =>
      have h2 := processAll_all_none fetch now (f :: fs) hall
      simp [check_eol_dates, h2, bind, Except.bind, pure, Except.pure]

/-- Claim C7, witness: with a fetch that always fails, a singleton input
is skipped and yields the empty sequence, and the None test of that same
call agrees with the emptiness test. -/
theorem claim_c7_witness :
    (check_eol_dates (fun _ => none) ⟨2024, 1, 1⟩ [c2Component "z"] = .ok none ↔
      [c2Component "z"] = [])
    ∧ check_eol_dates (fun _ => none) ⟨2024, 1, 1⟩ [c2Component "z"] =
        .ok (some []) :=
  ⟨(claim_c7_amended (fun _ => none) ⟨2024, 1, 1⟩ [c2Component "z"]).1,
   (claim_c7_amended (fun _ => none) ⟨2024, 1, 1⟩ [c2Component "z"]).2
     (by simp)
     (by
       intro fw hfw
       rw [List.mem_singleton] at hfw
       subst hfw
       rfl)⟩

/-- Claim C8, counterexample: an input list containing a dict that lacks
the name key, on which the call raises ValueError from an earlier
component rather than a KeyError, so the claim that every such list makes
the call raise a KeyError is false as stated. -/
theorem claim_c8_counterexample :
    check_eol_dates (fun _ => some c8Table) ⟨2024, 1, 1⟩
      [c2Component "x", c8BadFw] = .error (.valueError "oops") := rfl

/-- Claim C8, amended: the name and version reads are unguarded, so a
component dict lacking name raises KeyError name and one lacking version
raises KeyError version, and any exception raised while processing a
component aborts the whole call once every earlier component has been
processed without raising; totality requires both keys on every
component. -/
theorem claim_c8_amended :
    (∀ (fetch : J → Option (List J)) (now : Date) (pre : List J) (fw : J)
        (post : List J) (e : PyErr),
      (∀ f ∈ pre, ∃ r, processFramework fetch now f = .ok r) →
      processFramework fetch now fw = .error e →
      check_eol_dates fetch now (pre ++ fw :: post) = .error e)
    ∧ (∀ (fetch : J → Option (List J)) (now : Date) (fields : List (String × J)),
      assocFind fields "name" = none →
      processFramework fetch now (.obj fields) = .error (.keyError "name"))
    ∧ (∀ (fetch : J → Option (List J)) (now : Date) (fields : List (String × J))
        (v : J),
      assocFind fields "name" = some v → assocFind fields "version" = none →
      processFramework fetch now (.obj fields) = .error (.keyError "version")) := by
  refine ⟨?_, ?_, ?_⟩
  · intro fetch now pre fw post e hall hfw
    have h2 := processAll_prefix_error fetch now pre fw post e hall hfw
    cases pre with
    | nil => simp_all [check_eol_dates, bind, Except.bind]
    | cons p ps => simp_all [check_eol_dates, bind, Except.bind]
  · intro fetch now fields h
    simp [processFramework, J.index, h, bind, Except.bind]
  · intro fetch now fields v h1 h2
    simp [processFramework, J.index, h1, h2, bind, Except.bind]

/-- Claim C8, witness: a dict lacking name aborts a singleton call with
KeyError name, the per-component KeyError facts for missing name and
missing version. -/
theorem claim_c8_witness :
    check_eol_dates (fun _ => none) ⟨2024, 1, 1⟩ [c8BadFw] =
      .error (.keyError "name")
    ∧ processFramework (fun _ => none) ⟨2024, 1, 1⟩ c8BadFw =
        .error (.keyError "name")
    ∧ processFramework (fun _ => none) ⟨2024, 1, 1⟩
        (J.obj [("name", J.str "x")]) = .error (.keyError "version") :=
  ⟨claim_c8_amended.1 (fun _ => none) ⟨2024, 1, 1⟩ [] c8BadFw []
      (.keyError "name") (fun f hf => absurd hf (List.not_mem_nil f)) rfl,
   claim_c8_amended.2.1 (fun _ => none) ⟨2024, 1, 1⟩ [("version", J.str "2")] rfl,
   claim_c8_amended.2.2 (fun _ => none) ⟨2024, 1, 1⟩ [("name", J.str "x")]
      (J.str "x") rfl rfl⟩

/-- Claim C9: when the top-level components field of a valid JSON object
is a list, parse_sbom returns exactly that list, verbatim and unvalidated. -/
theorem claim_c9 (fields : List (String × J)) (xs : List J)
    (h : assocFind fields "components" = some (.arr xs)) :
    parse_sbom (.valid (.obj fields)) = .ok (some xs) := by
  simp [parse_sbom, h]

/-- Claim C9, witness: a components list holding a number, a string and an
empty object is returned verbatim. -/
theorem claim_c9_witness :
    parse_sbom (.valid (.obj
      [("components", J.arr [J.num 1, J.str "a", J.obj []])])) =
      .ok (some [J.num 1, J.str "a", J.obj []]) :=
  claim_c9 [("components", J.arr [J.num 1, J.str "a", J.obj []])]
    [J.num 1, J.str "a", J.obj []] rfl

/-- Claim C10: when every one of the five attempts raises a classified
overloaded error, search sleeps 1, 2, 4, 8 and 16 time units, the final
sleep preceding no retry, and returns None rather than raising. -/
theorem claim_c10 {α : Type} (upstream : Nat → Except Exn α)
    (h : ∀ i, i < 5 → ∃ e, upstream i = .error e ∧ retryable e = true) :
    search upstream = ⟨.returned none, [1, 2, 4, 8, 16], [0, 1, 2, 3, 4]⟩ := by
  obtain ⟨a0, ha0, hb0⟩ := h 0 (by omega)
  obtain ⟨a1, ha1, hb1⟩ := h 1 (by omega)
  obtain ⟨a2, ha2, hb2⟩ := h 2 (by omega)
  obtain ⟨a3, ha3, hb3⟩ := h 3 (by omega)
  obtain ⟨a4, ha4, hb4⟩ := h 4 (by omega)
  simp [search, searchGo, ha0, hb0, ha1, hb1, ha2, hb2, ha3, hb3, ha4, hb4]

/-- Claim C10, witness: the concrete always-overloaded upstream. -/
theorem claim_c10_witness :
    search c10Upstream = ⟨.returned none, [1, 2, 4, 8, 16], [0, 1, 2, 3, 4]⟩ :=
  claim_c10 c10Upstream
    (fun i _ => ⟨.apiStatus "xx overloaded_error yy", rfl, rfl⟩)
